import Mathlib

/-!
Shallow embedding of `src/demand_response.c` / `src/demand_response.h`
(OpenCBP demand-response strategy engine).

Modelling conventions:
* C `double` values are modelled as real numbers (`ℝ`), with decimal
  literals carrying their exact rational value.
* The `RainflowCycle*` growable array (`cycles`, `cycle_array_size`,
  `cycle_count_index`) is modelled as a `List RainflowCycle`; the list
  length plays the role of `cycle_count_index`, and the geometric
  reallocation in `add_rainflow_cycle` is an allocation detail with no
  observable effect on the stored sequence.
* The `timestamp` field of `RainflowCycle` is written from `time(NULL)`
  (wall clock, outside the embedding) and is read by nothing in the
  repository; it is omitted from the model.
* `cycle_count` is declared `uint32_t` in `demand_response.h`.  The C
  compound assignment `strategy->cycle_count += depth` (with `depth` a
  `double`) computes in `double` and converts the result back to
  `uint32_t`, truncating toward zero; for the non-negative in-range
  values that occur here this is `Nat.floor`.
* `calculate_fast_dr_bid` reads the wall clock for `hour_of_day`
  (`localtime`); the embedding takes `hour_of_day` as an explicit
  parameter, everything else unchanged.
* The C `int *peak_hours` array is consumed only through truthiness
  tests (`peak_hours[h] ? … : …`); it is modelled as `List Bool`.
* Lean's convention `x / 0 = 0` coincides here with the observable IEEE
  behaviour of `calculate_degradation_cost` at `stress_factor = 0`
  (where C produces `cycles_at_dod = inf`, `1.0 / inf = 0.0`, and a
  final product of `0.0`).
-/

/-- `struct RainflowCycle` from `demand_response.h` (lines 38–43), without
the wall-clock `timestamp` field. -/
structure RainflowCycle where
  depth : ℝ
  mean_soc : ℝ
  temperature : ℝ

/-- `struct DemandResponseStrategy` from `demand_response.h` (lines 10–35).
`cycles` models the growable rainflow array; its length is
`cycle_count_index`.  `cycle_count` is the `uint32_t` equivalent-full-cycle
counter. -/
structure DemandResponseStrategy where
  battery_capacity : ℝ
  efficiency : ℝ
  min_soc : ℝ
  max_soc : ℝ
  current_soc : ℝ
  cycle_count : ℕ
  replacement_cost : ℝ
  k_delta_e1 : ℝ
  k_delta_e2 : ℝ
  cycles_to_eol : ℝ
  cycles : List RainflowCycle
  risk_factor : ℝ
  alpha : ℝ
  beta : ℝ
  max_grid_demand : ℝ

/-- `DemandResponseStrategy_init` (`demand_response.c` lines 7–38): field
assignments only; the function performs no validation of its arguments. -/
def DemandResponseStrategy_init (battery_capacity efficiency : ℝ) :
    DemandResponseStrategy where
  battery_capacity := battery_capacity
  efficiency := efficiency
  min_soc := 0.1
  max_soc := 0.9
  current_soc := 0.5
  cycle_count := 0
  replacement_cost := 4000.0
  k_delta_e1 := 0.693
  k_delta_e2 := 3.31
  cycles_to_eol := 5000
  cycles := []
  risk_factor := 0.05
  alpha := 0.3
  beta := 0.2
  max_grid_demand := 50000.0

/-- `calculate_degradation_cost` (`demand_response.c` lines 41–56). -/
noncomputable def calculate_degradation_cost (s : DemandResponseStrategy)
    (depth_of_discharge : ℝ) : ℝ :=
  let stress_factor := s.k_delta_e1 * depth_of_discharge *
    Real.exp (s.k_delta_e2 * depth_of_discharge)
  let cycles_at_dod := s.cycles_to_eol / stress_factor
  (s.replacement_cost / s.battery_capacity) * (1.0 / cycles_at_dod) *
    depth_of_discharge

/-- `add_rainflow_cycle` (`demand_response.c` lines 59–77): unconditionally
appends the cycle and performs `cycle_count += depth`, whose C semantics on
a `uint32_t` target truncates the `double` sum toward zero. -/
noncomputable def add_rainflow_cycle (s : DemandResponseStrategy)
    (depth mean_soc temperature : ℝ) : DemandResponseStrategy :=
  { s with
    cycles := s.cycles ++ [⟨depth, mean_soc, temperature⟩]
    cycle_count := Nat.floor ((s.cycle_count : ℝ) + depth) }

/-- `_calculate_marginal_cost` (`demand_response.c` lines 80–95). -/
noncomputable def calculate_marginal_cost (s : DemandResponseStrategy)
    (time_of_day depth_of_discharge opp_cost : ℝ) : ℝ :=
  let base_cost : ℝ := if 6 ≤ time_of_day ∧ time_of_day ≤ 18 then 0.29 else 0.10
  let degradation_cost := calculate_degradation_cost s depth_of_discharge
  (base_cost + degradation_cost + opp_cost + s.risk_factor) / s.efficiency

/-- `find_nash_equilibrium_price` (`demand_response.c` lines 98–109). -/
noncomputable def find_nash_equilibrium_price (s : DemandResponseStrategy)
    (market_price grid_demand : ℝ) (num_competitors : ℕ) : ℝ :=
  let demand_factor := min (grid_demand / s.max_grid_demand) 1.5
  let markup := s.alpha * (demand_factor / ((num_competitors : ℝ) * s.beta + 1))
  market_price * (1 + markup)

/-- `calculate_opportunity_cost` (`demand_response.c` lines 112–130): a
forward loop over the forecast keeping the running maximum of the
discounted prices (strict-`>` update, accumulator starting at `0.0`),
halved.  The C `NULL`/`forecast_hours ≤ 0` early return coincides with the
empty-list case of the model. -/
noncomputable def calculate_opportunity_cost (price_forecast : List ℝ) : ℝ :=
  let discount_factor : ℝ := 0.9
  let max_expected_value :=
    (List.range price_forecast.length).foldl
      (fun acc i =>
        let expected_value := price_forecast.getD i 0 * discount_factor ^ i
        if acc < expected_value then expected_value else acc) 0
  max_expected_value * 0.5

/-- The synthetic rising forecast built inside `calculate_fast_dr_bid`
(`demand_response.c` lines 142–145): `price_forecast[i] = market_price *
(1 + 0.05 * i)` for `i = 0..23`. -/
noncomputable def fast_dr_price_forecast (market_price : ℝ) : List ℝ :=
  (List.range 24).map (fun (i : ℕ) => market_price * (1 + 0.05 * (i : ℝ)))

/-- The marginal cost computed inside `calculate_fast_dr_bid`
(`demand_response.c` lines 136–158), as a function of the same inputs. -/
noncomputable def fast_dr_marginal_cost (s : DemandResponseStrategy)
    (market_price hour_of_day : ℝ) : ℝ :=
  let available_capacity := (s.current_soc - s.min_soc) * s.battery_capacity
  let depth_of_discharge := available_capacity / s.battery_capacity
  let opp_cost := calculate_opportunity_cost (fast_dr_price_forecast market_price)
  calculate_marginal_cost s hour_of_day depth_of_discharge opp_cost

/-- `calculate_fast_dr_bid` (`demand_response.c` lines 133–176), with
`hour_of_day` (read from `localtime` in C) as an explicit parameter.
Returns `(bid_capacity, bid_price)`. -/
noncomputable def calculate_fast_dr_bid (s : DemandResponseStrategy)
    (market_price grid_demand time_window hour_of_day : ℝ) : ℝ × ℝ :=
  let available_capacity := (s.current_soc - s.min_soc) * s.battery_capacity
  let marginal_cost := fast_dr_marginal_cost s market_price hour_of_day
  let nash_price := find_nash_equilibrium_price s market_price grid_demand 10
  if marginal_cost < nash_price then
    (min available_capacity (s.battery_capacity * time_window * s.efficiency),
     nash_price)
  else
    (0, 0)

/-- `calculate_capacity_allocation` (`demand_response.c` lines 179–199):
softmax with `gamma = 2.0` over expected revenues, peak hours weighted by
`1.2`. -/
noncomputable def calculate_capacity_allocation (day_ahead_prices : List ℝ)
    (peak_hours : List Bool) : List ℝ :=
  let gamma : ℝ := 2.0
  let exp_factors := (day_ahead_prices.zip peak_hours).map
    (fun p => Real.exp (gamma * (p.1 * (if p.2 then 1.2 else 1.0))))
  let total_exp_factor := exp_factors.sum
  exp_factors.map (fun f => f / total_exp_factor)

/-- The clamped state of charge produced by `update_state_of_charge`
(`demand_response.c` lines 249–252): `fmax(min_soc, fmin(max_soc,
current_soc - energy/capacity))`. -/
noncomputable def socAfter (s : DemandResponseStrategy)
    (energy_delivered_kwh : ℝ) : ℝ :=
  max s.min_soc (min s.max_soc (s.current_soc - energy_delivered_kwh / s.battery_capacity))

/-- The cycle depth induced by one `update_state_of_charge` call
(`demand_response.c` line 255): `fabs(prev_soc - current_soc)`. -/
noncomputable def depthOf (s : DemandResponseStrategy)
    (energy_delivered_kwh : ℝ) : ℝ :=
  |s.current_soc - socAfter s energy_delivered_kwh|

/-- `update_state_of_charge` (`demand_response.c` lines 244–267): clamp the
new SOC, then record a rainflow cycle (at the fixed dummy temperature 25.0)
only when the induced depth exceeds `0.01`. -/
noncomputable def update_state_of_charge (s : DemandResponseStrategy)
    (energy_delivered_kwh : ℝ) : DemandResponseStrategy :=
  let prev_soc := s.current_soc
  let new_soc := socAfter s energy_delivered_kwh
  let s1 := { s with current_soc := new_soc }
  let depth := |prev_soc - new_soc|
  let mean_soc := (prev_soc + new_soc) / 2
  let temperature : ℝ := 25.0
  if 0.01 < depth then add_rainflow_cycle s1 depth mean_soc temperature else s1

/-! ### Generic facts about the running-maximum fold in
`calculate_opportunity_cost` and about list sums -/

lemma maxStep_eq_max (a v : ℝ) : (if a < v then v else a) = max a v := by
  rcases le_or_lt v a with h | h
  · rw [if_neg (not_lt.mpr h), max_eq_left h]
  · rw [if_pos h, max_eq_right h.le]

lemma foldl_maxStep_eq_foldl_max {α : Type} (l : List α) (f : α → ℝ) (a : ℝ) :
    l.foldl (fun acc x => if acc < f x then f x else acc) a =
      l.foldl (fun acc x => max acc (f x)) a := by
  induction l generalizing a with
  | nil => rfl
  | cons x t ih => simp only [List.foldl_cons, maxStep_eq_max, ih]

lemma le_foldl_max {α : Type} (l : List α) (f : α → ℝ) (a : ℝ) :
    a ≤ l.foldl (fun acc x => max acc (f x)) a := by
  induction l generalizing a with
  | nil => exact le_rfl
  | cons x t ih => exact le_trans (le_max_left a (f x)) (ih _)

lemma foldl_max_le {α : Type} (l : List α) (f : α → ℝ) (a B : ℝ)
    (ha : a ≤ B) (hl : ∀ x ∈ l, f x ≤ B) :
    l.foldl (fun acc x => max acc (f x)) a ≤ B := by
  induction l generalizing a with
  | nil => exact ha
  | cons x t ih =>
    exact ih _ (max_le ha (hl x (List.mem_cons_self x t)))
      (fun y hy => hl y (List.mem_cons_of_mem x hy))

lemma mem_le_foldl_max {α : Type} (l : List α) (f : α → ℝ) (a : ℝ)
    (x : α) (hx : x ∈ l) :
    f x ≤ l.foldl (fun acc x => max acc (f x)) a := by
  induction l generalizing a with
  | nil => cases hx
  | cons y t ih =>
    rcases List.mem_cons.mp hx with h | h
    · subst h
      exact le_trans (le_max_right a (f x)) (le_foldl_max t f _)
    · exact ih _ h

/-! ### Simple structural lemmas about the state transition -/

lemma update_min_soc (s : DemandResponseStrategy) (e : ℝ) :
    (update_state_of_charge s e).min_soc = s.min_soc := by
  unfold update_state_of_charge add_rainflow_cycle
  dsimp only
  split <;> rfl

lemma update_max_soc (s : DemandResponseStrategy) (e : ℝ) :
    (update_state_of_charge s e).max_soc = s.max_soc := by
  unfold update_state_of_charge add_rainflow_cycle
  dsimp only
  split <;> rfl

lemma update_current_soc (s : DemandResponseStrategy) (e : ℝ) :
    (update_state_of_charge s e).current_soc = socAfter s e := by
  unfold update_state_of_charge add_rainflow_cycle
  dsimp only
  split <;> rfl

lemma socAfter_bounds (s : DemandResponseStrategy) (e : ℝ)
    (h : s.min_soc ≤ s.max_soc) :
    s.min_soc ≤ socAfter s e ∧ socAfter s e ≤ s.max_soc := by
  unfold socAfter
  exact ⟨le_max_left _ _, max_le h (min_le_left _ _)⟩

/-- C9: evaluation of the constructor at invalid arguments (negative
capacity, efficiency outside (0,1]).  `DemandResponseStrategy_init`
performs no validation: it returns a fully-initialized, usable strategy
state and signals nothing. -/
theorem init_accepts_invalid_args :
    ((-1 : ℝ) < 0 ∧ ¬ ((2 : ℝ) ≤ 1)) ∧
    (DemandResponseStrategy_init (-1) 2).battery_capacity = -1 ∧
    (DemandResponseStrategy_init (-1) 2).efficiency = 2 ∧
    (DemandResponseStrategy_init (-1) 2).min_soc = 0.1 ∧
    (DemandResponseStrategy_init (-1) 2).max_soc = 0.9 ∧
    (DemandResponseStrategy_init (-1) 2).current_soc = 0.5 ∧
    (DemandResponseStrategy_init (-1) 2).cycle_count = 0 ∧
    (DemandResponseStrategy_init (-1) 2).cycles = [] := by
  refine ⟨⟨by norm_num, by norm_num⟩, ?_, ?_, ?_, ?_, ?_, ?_, ?_⟩ <;> rfl

/-- C5: starting from any state with `min_soc ≤ current_soc ≤ max_soc` and
`min_soc < max_soc`, after any finite sequence of `update_state_of_charge`
calls the invariant `min_soc ≤ current_soc ≤ max_soc` still holds (and
hence, quantifying over all prefixes of a call sequence, it holds after
every call). -/
theorem soc_bounds_invariant (s : DemandResponseStrategy) (es : List ℝ)
    (hlt : s.min_soc < s.max_soc)
    (hlo : s.min_soc ≤ s.current_soc) (hhi : s.current_soc ≤ s.max_soc) :
    (es.foldl update_state_of_charge s).min_soc ≤
      (es.foldl update_state_of_charge s).current_soc ∧
    (es.foldl update_state_of_charge s).current_soc ≤
      (es.foldl update_state_of_charge s).max_soc := by
  induction es generalizing s with
  | nil => exact ⟨hlo, hhi⟩
  | cons e t ih =>
    simp only [List.foldl_cons]
    have hb := socAfter_bounds s e hlt.le
    exact ih (update_state_of_charge s e)
      (by rw [update_min_soc, update_max_soc]; exact hlt)
      (by rw [update_min_soc, update_current_soc]; exact hb.1)
      (by rw [update_max_soc, update_current_soc]; exact hb.2)

/-- Witness for C5 at a concrete state and call sequence. -/
theorem soc_bounds_invariant_witness :
    (List.foldl update_state_of_charge (DemandResponseStrategy_init 6.5 0.95)
        [10, -3]).min_soc ≤
      (List.foldl update_state_of_charge (DemandResponseStrategy_init 6.5 0.95)
        [10, -3]).current_soc ∧
    (List.foldl update_state_of_charge (DemandResponseStrategy_init 6.5 0.95)
        [10, -3]).current_soc ≤
      (List.foldl update_state_of_charge (DemandResponseStrategy_init 6.5 0.95)
        [10, -3]).max_soc :=
  soc_bounds_invariant (DemandResponseStrategy_init 6.5 0.95) [10, -3]
    (by norm_num [DemandResponseStrategy_init])
    (by norm_num [DemandResponseStrategy_init])
    (by norm_num [DemandResponseStrategy_init])

/-- C2, counterexample: `add_rainflow_cycle` itself contains no threshold
test.  Called with the sub-threshold depth `0.005 ≤ 0.01` it is not a
no-op: it appends a cycle to the empty log. -/
theorem add_rainflow_cycle_subthreshold_appends :
    (0.005 : ℝ) ≤ 0.01 ∧
    (DemandResponseStrategy_init 6.5 0.95).cycles.length = 0 ∧
    (add_rainflow_cycle (DemandResponseStrategy_init 6.5 0.95)
        0.005 0.25 25).cycles.length = 1 := by
  refine ⟨by norm_num, rfl, ?_⟩
  simp [add_rainflow_cycle, DemandResponseStrategy_init]

/-- C2, amended: the `depth > 0.01` threshold lives in
`update_state_of_charge`, not in `add_rainflow_cycle`.  A call whose
induced depth is `≤ 0.01` leaves the cycle log and the cycle counter
unchanged, and every cycle present after a call was either already present
or has depth `> 0.01`. -/
theorem update_soc_cycle_threshold (s : DemandResponseStrategy) (e : ℝ) :
    (depthOf s e ≤ 0.01 →
      (update_state_of_charge s e).cycles = s.cycles ∧
      (update_state_of_charge s e).cycle_count = s.cycle_count) ∧
    (∀ c ∈ (update_state_of_charge s e).cycles, c ∈ s.cycles ∨ 0.01 < c.depth) := by
  unfold update_state_of_charge add_rainflow_cycle
  dsimp only
  split
  case isTrue h =>
    constructor
    · intro h'
      exact absurd h' (not_le.mpr (by simpa [depthOf] using h))
    · intro c hc
      rcases List.mem_append.mp hc with hc | hc
      · exact Or.inl hc
      · right
        rcases List.mem_singleton.mp hc with rfl
        simpa using h
  case isFalse h =>
    exact ⟨fun _ => ⟨rfl, rfl⟩, fun c hc => Or.inl hc⟩

/-- Witness for C2's amended theorem: Scenario F — from the initial state,
`update_state_of_charge 0.05` induces depth `0.05/6.5 ≈ 0.0077 ≤ 0.01` and
leaves the (empty) cycle log and the counter unchanged. -/
theorem update_soc_cycle_threshold_witness :
    (update_state_of_charge (DemandResponseStrategy_init 6.5 0.95) 0.05).cycles
        = (DemandResponseStrategy_init 6.5 0.95).cycles ∧
    (update_state_of_charge (DemandResponseStrategy_init 6.5 0.95) 0.05).cycle_count
        = (DemandResponseStrategy_init 6.5 0.95).cycle_count :=
  (update_soc_cycle_threshold (DemandResponseStrategy_init 6.5 0.95) 0.05).1 (by
    unfold depthOf socAfter DemandResponseStrategy_init
    rw [min_eq_right (by norm_num), max_eq_right (by norm_num)]
    rw [abs_of_nonneg (by norm_num)]
    norm_num)

/-- C1: evaluation of Scenario E on the code.  From the initial state of
`DemandResponseStrategy_init 6.5 0.95` (soc 0.5), `update_state_of_charge
10.0` clamps the SOC to 0.1 and appends a rainflow cycle of depth 0.4, so
the sum of logged depths is 0.4 — but the `uint32_t` counter update
`cycle_count += depth` truncates `0 + 0.4` back to `0`: the equivalent-
full-cycle counter does not increase and does not equal the sum of logged
depths. -/
theorem scenarioE_cycle_count_stays_zero :
    (update_state_of_charge (DemandResponseStrategy_init 6.5 0.95) 10).cycle_count
        = 0 ∧
    ((update_state_of_charge (DemandResponseStrategy_init 6.5 0.95) 10).cycles.map
        RainflowCycle.depth).sum = 0.4 := by
  have hsoc : socAfter (DemandResponseStrategy_init 6.5 0.95) 10 = 0.1 := by
    unfold socAfter DemandResponseStrategy_init
    rw [min_eq_right (by norm_num), max_eq_left (by norm_num)]
  unfold update_state_of_charge
  rw [hsoc]
  dsimp only
  rw [if_pos (by rw [abs_of_nonneg] <;> norm_num [DemandResponseStrategy_init])]
  unfold add_rainflow_cycle DemandResponseStrategy_init
  refine ⟨?_, ?_⟩
  · rw [Nat.floor_eq_zero]
    rw [abs_of_nonneg (by norm_num)]
    norm_num
  · simp only [List.nil_append, List.map_cons, List.map_nil, List.sum_cons,
      List.sum_nil]
    rw [abs_of_nonneg (by norm_num)]
    norm_num

/-! ### Degradation-cost lemmas -/

/-- Algebraic form of `calculate_degradation_cost`.  (At `stress_factor = 0`
both sides are `0`: in the model by the `x / 0 = 0` convention, in C by
`1.0 / inf = 0.0`.) -/
lemma degradation_cost_eq (s : DemandResponseStrategy) (d : ℝ) :
    calculate_degradation_cost s d =
      (s.replacement_cost / s.battery_capacity) *
        ((s.k_delta_e1 * d * Real.exp (s.k_delta_e2 * d)) / s.cycles_to_eol) * d := by
  unfold calculate_degradation_cost
  dsimp only
  rw [show (1.0 : ℝ) = 1 by norm_num, one_div_div]

lemma degradation_cost_pos_of_neg (s : DemandResponseStrategy) (d : ℝ)
    (hrepl : 0 < s.replacement_cost) (hcap : 0 < s.battery_capacity)
    (hk1 : 0 < s.k_delta_e1) (heol : 0 < s.cycles_to_eol) (hd : d < 0) :
    0 < calculate_degradation_cost s d := by
  rw [degradation_cost_eq]
  have hexp := Real.exp_pos (s.k_delta_e2 * d)
  have hd2 : 0 < d ^ 2 := by nlinarith
  have hrw : (s.replacement_cost / s.battery_capacity) *
        ((s.k_delta_e1 * d * Real.exp (s.k_delta_e2 * d)) / s.cycles_to_eol) * d =
      (s.replacement_cost / s.battery_capacity) *
        ((s.k_delta_e1 * Real.exp (s.k_delta_e2 * d)) / s.cycles_to_eol) * d ^ 2 := by
    ring
  rw [hrw]
  exact mul_pos (mul_pos (div_pos hrepl hcap)
    (div_pos (mul_pos hk1 hexp) heol)) hd2

/-- C8, counterexample: `calculate_degradation_cost` has no `dod ≤ 0`
guard.  At the strictly negative depth-of-discharge `-1` (with the
constructor's parameters) it returns a nonzero (strictly positive) value,
not `0`. -/
theorem degradation_cost_neg_dod_nonzero :
    (-1 : ℝ) ≤ 0 ∧
    calculate_degradation_cost (DemandResponseStrategy_init 6.5 0.95) (-1) ≠ 0 :=
  ⟨by norm_num,
   (ne_of_gt (degradation_cost_pos_of_neg (DemandResponseStrategy_init 6.5 0.95)
      (-1) (by norm_num [DemandResponseStrategy_init])
      (by norm_num [DemandResponseStrategy_init])
      (by norm_num [DemandResponseStrategy_init])
      (by norm_num [DemandResponseStrategy_init]) (by norm_num)))⟩

/-- C8, amended: `calculate_degradation_cost` returns `0` at `dod = 0`
(the formula degenerates to `0` there), but for `dod < 0` no clamp exists:
the same formula is applied and — for positive model parameters, as set by
the constructor — yields a strictly positive value. -/
theorem degradation_cost_nonpos_dod (s : DemandResponseStrategy) (dod : ℝ)
    (hrepl : 0 < s.replacement_cost) (hcap : 0 < s.battery_capacity)
    (hk1 : 0 < s.k_delta_e1) (heol : 0 < s.cycles_to_eol) :
    (dod = 0 → calculate_degradation_cost s dod = 0) ∧
    (dod < 0 → 0 < calculate_degradation_cost s dod) := by
  constructor
  · rintro rfl
    rw [degradation_cost_eq]
    ring
  · exact degradation_cost_pos_of_neg s dod hrepl hcap hk1 heol

/-- Witness for C8's amended theorem at the constructor state, at
`dod = 0` and `dod = -1`. -/
theorem degradation_cost_nonpos_dod_witness :
    calculate_degradation_cost (DemandResponseStrategy_init 6.5 0.95) 0 = 0 ∧
    0 < calculate_degradation_cost (DemandResponseStrategy_init 6.5 0.95) (-1) :=
  ⟨(degradation_cost_nonpos_dod (DemandResponseStrategy_init 6.5 0.95) 0
      (by norm_num [DemandResponseStrategy_init])
      (by norm_num [DemandResponseStrategy_init])
      (by norm_num [DemandResponseStrategy_init])
      (by norm_num [DemandResponseStrategy_init])).1 rfl,
   (degradation_cost_nonpos_dod (DemandResponseStrategy_init 6.5 0.95) (-1)
      (by norm_num [DemandResponseStrategy_init])
      (by norm_num [DemandResponseStrategy_init])
      (by norm_num [DemandResponseStrategy_init])
      (by norm_num [DemandResponseStrategy_init])).2 (by norm_num)⟩

/-- C7: the Nash-style equilibrium price is antitone in the number of
competitors — with the same non-negative market price, grid demand and
market parameters, more competitors never raise the price. -/
theorem nash_price_competition_antitone (s : DemandResponseStrategy)
    (market_price grid_demand : ℝ) (n1 n2 : ℕ)
    (hmp : 0 ≤ market_price) (hgd : 0 ≤ grid_demand)
    (hn1 : 1 ≤ n1) (hn : n1 < n2)
    (halpha : 0 ≤ s.alpha) (hbeta : 0 ≤ s.beta)
    (hmax : 0 ≤ s.max_grid_demand) :
    find_nash_equilibrium_price s market_price grid_demand n2 ≤
      find_nash_equilibrium_price s market_price grid_demand n1 := by
  unfold find_nash_equilibrium_price
  dsimp only
  have hdf : 0 ≤ min (grid_demand / s.max_grid_demand) 1.5 :=
    le_min (div_nonneg hgd hmax) (by norm_num)
  have hd1 : (0 : ℝ) < (n1 : ℝ) * s.beta + 1 := by positivity
  have hd12 : ((n1 : ℝ) * s.beta + 1) ≤ ((n2 : ℝ) * s.beta + 1) := by
    have hc : (n1 : ℝ) ≤ (n2 : ℝ) := Nat.cast_le.mpr hn.le
    nlinarith
  apply mul_le_mul_of_nonneg_left _ hmp
  apply add_le_add_left
  apply mul_le_mul_of_nonneg_left _ halpha
  gcongr

/-- Witness for C7 at a concrete strategy and market input. -/
theorem nash_price_competition_antitone_witness :
    find_nash_equilibrium_price (DemandResponseStrategy_init 1 1) 1 0 2 ≤
      find_nash_equilibrium_price (DemandResponseStrategy_init 1 1) 1 0 1 :=
  nash_price_competition_antitone (DemandResponseStrategy_init 1 1) 1 0 1 2
    (by norm_num) le_rfl le_rfl (by norm_num)
    (by norm_num [DemandResponseStrategy_init])
    (by norm_num [DemandResponseStrategy_init])
    (by norm_num [DemandResponseStrategy_init])

/-! ### The opportunity-cost maximum and the synthetic Fast-DR forecast -/

lemma opp_eq_max_fold (l : List ℝ) :
    calculate_opportunity_cost l =
      ((List.range l.length).foldl
        (fun acc i => max acc (l.getD i 0 * (0.9 : ℝ) ^ i)) 0) * 0.5 := by
  unfold calculate_opportunity_cost
  dsimp only
  rw [foldl_maxStep_eq_foldl_max (List.range l.length)
    (fun i => l.getD i 0 * (0.9 : ℝ) ^ i) 0]

lemma calculate_opportunity_cost_nonneg (l : List ℝ) :
    0 ≤ calculate_opportunity_cost l := by
  rw [opp_eq_max_fold]
  have h := le_foldl_max (List.range l.length)
    (fun i => l.getD i 0 * (0.9 : ℝ) ^ i) 0
  nlinarith

lemma pow_ineq_aux (n : ℕ) : ((20 : ℝ) + n) * 9 ^ n ≤ 20 * 10 ^ n := by
  induction n with
  | zero => norm_num
  | succ n ih =>
    have h9 : (0 : ℝ) ≤ 9 ^ n := by positivity
    have hstep : ((21 : ℝ) + n) * 9 ≤ ((20 : ℝ) + n) * 10 := by
      have hc : (0 : ℝ) ≤ (n : ℝ) := Nat.cast_nonneg n
      nlinarith
    calc ((20 : ℝ) + ↑(n + 1)) * 9 ^ (n + 1)
        = (((21 : ℝ) + n) * 9) * 9 ^ n := by push_cast; ring
      _ ≤ (((20 : ℝ) + n) * 10) * 9 ^ n := mul_le_mul_of_nonneg_right hstep h9
      _ = 10 * (((20 : ℝ) + n) * 9 ^ n) := by ring
      _ ≤ 10 * (20 * 10 ^ n) := mul_le_mul_of_nonneg_left ih (by norm_num)
      _ = 20 * 10 ^ (n + 1) := by ring

/-- The discounted synthetic-forecast factor `(1 + 0.05·i)·0.9^i` attains
its maximum `1` at `i = 0`. -/
lemma discount_term_le_one (n : ℕ) : (1 + 0.05 * (n : ℝ)) * 0.9 ^ n ≤ 1 := by
  have h := pow_ineq_aux n
  have h10 : (0 : ℝ) < 10 ^ n := by positivity
  have h09 : (0.9 : ℝ) ^ n = 9 ^ n / 10 ^ n := by
    rw [show (0.9 : ℝ) = 9 / 10 by norm_num, div_pow]
  rw [h09, mul_div_assoc', div_le_one h10]
  have hid : ((20 : ℝ) + n) * 9 ^ n = 20 * ((1 + 0.05 * (n : ℝ)) * 9 ^ n) := by
    ring
  linarith

lemma fast_dr_forecast_length (mp : ℝ) : (fast_dr_price_forecast mp).length = 24 := by
  simp [fast_dr_price_forecast]

lemma fast_dr_forecast_getD (mp : ℝ) (i : ℕ) (hi : i < 24) :
    (fast_dr_price_forecast mp).getD i 0 = mp * (1 + 0.05 * i) := by
  unfold fast_dr_price_forecast
  rw [List.getD_eq_getElem?_getD, List.getElem?_map, List.getElem?_range hi]
  rfl

/-- On the synthetic rising forecast `market_price·(1 + 0.05·i)` the
opportunity cost is exactly half the market price, because the discounted
value `(1 + 0.05·i)·0.9^i` is maximal at `i = 0`. -/
lemma fast_dr_opp_eq (mp : ℝ) (hmp : 0 ≤ mp) :
    calculate_opportunity_cost (fast_dr_price_forecast mp) = 0.5 * mp := by
  rw [opp_eq_max_fold, fast_dr_forecast_length]
  have hle : ∀ i ∈ List.range 24,
      (fast_dr_price_forecast mp).getD i 0 * (0.9 : ℝ) ^ i ≤ mp := by
    intro i hi
    rw [fast_dr_forecast_getD mp i (List.mem_range.mp hi)]
    have h1 := discount_term_le_one i
    calc mp * (1 + 0.05 * (i : ℝ)) * 0.9 ^ i
        = mp * ((1 + 0.05 * (i : ℝ)) * 0.9 ^ i) := by ring
      _ ≤ mp * 1 := mul_le_mul_of_nonneg_left h1 hmp
      _ = mp := mul_one mp
  have hub : (List.range 24).foldl
      (fun acc i => max acc ((fast_dr_price_forecast mp).getD i 0 * (0.9 : ℝ) ^ i))
      0 ≤ mp :=
    foldl_max_le (List.range 24)
      (fun i => (fast_dr_price_forecast mp).getD i 0 * (0.9 : ℝ) ^ i) 0 mp hmp hle
  have hlb : (fast_dr_price_forecast mp).getD 0 0 * (0.9 : ℝ) ^ 0 ≤
      (List.range 24).foldl
        (fun acc i => max acc ((fast_dr_price_forecast mp).getD i 0 * (0.9 : ℝ) ^ i))
        0 :=
    mem_le_foldl_max (List.range 24)
      (fun i => (fast_dr_price_forecast mp).getD i 0 * (0.9 : ℝ) ^ i) 0 0
      (List.mem_range.mpr (by norm_num))
  have hf0 : (fast_dr_price_forecast mp).getD 0 0 * (0.9 : ℝ) ^ 0 = mp := by
    rw [fast_dr_forecast_getD mp 0 (by norm_num)]
    norm_num
  have heq : (List.range 24).foldl
      (fun acc i => max acc ((fast_dr_price_forecast mp).getD i 0 * (0.9 : ℝ) ^ i))
      0 = mp :=
    le_antisymm hub (hf0.symm.trans_le hlb)
  rw [heq]
  ring

/-- C10: for every non-negative market price, the opportunity cost that
`calculate_fast_dr_bid` computes from its synthetic forecast
`market_price·(1 + 0.05·i)`, `i = 0..23`, equals exactly
`0.5 · market_price`. -/
theorem fast_dr_opportunity_cost_value (market_price : ℝ)
    (hmp : 0 ≤ market_price) :
    calculate_opportunity_cost (fast_dr_price_forecast market_price) =
      0.5 * market_price :=
  fast_dr_opp_eq market_price hmp

/-- Witness for C10 at `market_price = 1`. -/
theorem fast_dr_opportunity_cost_value_witness :
    calculate_opportunity_cost (fast_dr_price_forecast 1) = 0.5 * 1 :=
  fast_dr_opportunity_cost_value 1 (by norm_num)

/-! ### Softmax allocation lemmas -/

lemma sum_map_div (l : List ℝ) (c : ℝ) :
    (l.map (fun f => f / c)).sum = l.sum / c := by
  induction l with
  | nil => simp
  | cons x t ih => simp [ih, add_div]

lemma element_lt_sum (l : List ℝ) (hpos : ∀ y ∈ l, 0 < y)
    (hlen : 2 ≤ l.length) (a : ℝ) (ha : a ∈ l) : a < l.sum := by
  cases l with
  | nil => cases ha
  | cons x t =>
    rcases List.mem_cons.mp ha with rfl | hat
    · have ht : t ≠ [] := by
        intro h
        rw [h] at hlen
        simp at hlen
      have htsum : 0 < t.sum :=
        List.sum_pos t (fun y hy => hpos y (List.mem_cons_of_mem _ hy)) ht
      simp only [List.sum_cons]
      linarith
    · have hx : 0 < x := hpos x (List.mem_cons_self x t)
      have hle : a ≤ t.sum :=
        List.single_le_sum (fun y hy => (hpos y (List.mem_cons_of_mem _ hy)).le)
          a hat
      simp only [List.sum_cons]
      linarith

/-- C4: for 24-hour price and peak-mask inputs, the softmax capacity
allocation is a probability distribution — every weight lies strictly
between 0 and 1 and the weights sum to exactly 1 (in exact real
arithmetic). -/
theorem capacity_allocation_prob_dist (day_ahead_prices : List ℝ)
    (peak_hours : List Bool) (hp : day_ahead_prices.length = 24)
    (hk : peak_hours.length = 24) :
    (∀ w ∈ calculate_capacity_allocation day_ahead_prices peak_hours,
      0 < w ∧ w < 1) ∧
    (calculate_capacity_allocation day_ahead_prices peak_hours).sum = 1 := by
  unfold calculate_capacity_allocation
  dsimp only
  set E := (day_ahead_prices.zip peak_hours).map
    (fun p => Real.exp (2.0 * (p.1 * (if p.2 then 1.2 else 1.0)))) with hE
  have hEpos : ∀ y ∈ E, 0 < y := by
    intro y hy
    rw [hE] at hy
    rcases List.mem_map.mp hy with ⟨p, _, rfl⟩
    exact Real.exp_pos _
  have hElen : E.length = 24 := by
    rw [hE]
    simp [List.length_zip, hp, hk]
  have hEne : E ≠ [] := by
    intro h
    rw [h] at hElen
    simp at hElen
  have hsum : 0 < E.sum := List.sum_pos E hEpos hEne
  constructor
  · intro w hw
    rcases List.mem_map.mp hw with ⟨a, haE, rfl⟩
    refine ⟨div_pos (hEpos a haE) hsum, ?_⟩
    rw [div_lt_one hsum]
    exact element_lt_sum E hEpos (by rw [hElen]; norm_num) a haE
  · rw [sum_map_div, div_self (ne_of_gt hsum)]

/-- Witness for C4 at a concrete flat 24-hour input (Scenario C's market
data). -/
theorem capacity_allocation_prob_dist_witness :
    (calculate_capacity_allocation (List.replicate 24 (0.1 : ℝ))
      (List.replicate 24 false)).sum = 1 :=
  (capacity_allocation_prob_dist (List.replicate 24 (0.1 : ℝ))
    (List.replicate 24 false) (by simp) (by simp)).2

/-! ### Marginal-cost positivity and the Fast-DR profitability invariant -/

lemma degradation_cost_nonneg (s : DemandResponseStrategy) (d : ℝ)
    (hrepl : 0 ≤ s.replacement_cost) (hcap : 0 ≤ s.battery_capacity)
    (hk1 : 0 ≤ s.k_delta_e1) (heol : 0 ≤ s.cycles_to_eol) (hd : 0 ≤ d) :
    0 ≤ calculate_degradation_cost s d := by
  rw [degradation_cost_eq]
  have hexp := (Real.exp_pos (s.k_delta_e2 * d)).le
  exact mul_nonneg (mul_nonneg (div_nonneg hrepl hcap)
    (div_nonneg (mul_nonneg (mul_nonneg hk1 hd) hexp) heol)) hd

lemma marginal_cost_pos (s : DemandResponseStrategy) (t d opp : ℝ)
    (heff : 0 < s.efficiency) (hrisk : 0 ≤ s.risk_factor)
    (hdeg : 0 ≤ calculate_degradation_cost s d) (hopp : 0 ≤ opp) :
    0 < calculate_marginal_cost s t d opp := by
  unfold calculate_marginal_cost
  dsimp only
  apply div_pos _ heff
  split <;> linarith

/-- C3: for valid inputs, the Fast DR bid is either exactly `(0, 0)` or its
price is at least the (strictly positive) marginal cost computed by the
marginal-cost model for the same inputs. -/
theorem fast_dr_bid_profitability (s : DemandResponseStrategy)
    (market_price grid_demand time_window hour_of_day : ℝ)
    (hcap : 0 < s.battery_capacity) (heff : 0 < s.efficiency)
    (heff1 : s.efficiency ≤ 1) (hminmax : s.min_soc < s.max_soc)
    (hlo : s.min_soc ≤ s.current_soc) (hhi : s.current_soc ≤ s.max_soc)
    (hmp : 0 ≤ market_price) (hgd : 0 ≤ grid_demand) (htw : 0 ≤ time_window)
    (hrepl : 0 ≤ s.replacement_cost) (hk1 : 0 ≤ s.k_delta_e1)
    (heol : 0 ≤ s.cycles_to_eol) (hrisk : 0 ≤ s.risk_factor) :
    calculate_fast_dr_bid s market_price grid_demand time_window hour_of_day
        = (0, 0) ∨
    (0 < fast_dr_marginal_cost s market_price hour_of_day ∧
      fast_dr_marginal_cost s market_price hour_of_day ≤
        (calculate_fast_dr_bid s market_price grid_demand time_window
          hour_of_day).2) := by
  unfold calculate_fast_dr_bid
  dsimp only
  split
  case isTrue h =>
    right
    refine ⟨?_, h.le⟩
    unfold fast_dr_marginal_cost
    dsimp only
    apply marginal_cost_pos s hour_of_day _ _ heff hrisk
    · exact degradation_cost_nonneg s _ hrepl hcap.le hk1 heol
        (div_nonneg (mul_nonneg (by linarith) hcap.le) hcap.le)
    · exact calculate_opportunity_cost_nonneg _
  case isFalse h =>
    exact Or.inl rfl

/-- Witness for C3 at Scenario A's inputs (initial state, market price
0.05, grid demand 100, time window 1, noon). -/
theorem fast_dr_bid_profitability_witness :
    calculate_fast_dr_bid (DemandResponseStrategy_init 6.5 0.95) 0.05 100 1 12
        = (0, 0) ∨
    (0 < fast_dr_marginal_cost (DemandResponseStrategy_init 6.5 0.95) 0.05 12 ∧
      fast_dr_marginal_cost (DemandResponseStrategy_init 6.5 0.95) 0.05 12 ≤
        (calculate_fast_dr_bid (DemandResponseStrategy_init 6.5 0.95)
          0.05 100 1 12).2) :=
  fast_dr_bid_profitability (DemandResponseStrategy_init 6.5 0.95) 0.05 100 1 12
    (by norm_num [DemandResponseStrategy_init])
    (by norm_num [DemandResponseStrategy_init])
    (by norm_num [DemandResponseStrategy_init])
    (by norm_num [DemandResponseStrategy_init])
    (by norm_num [DemandResponseStrategy_init])
    (by norm_num [DemandResponseStrategy_init])
    (by norm_num) (by norm_num) (by norm_num)
    (by norm_num [DemandResponseStrategy_init])
    (by norm_num [DemandResponseStrategy_init])
    (by norm_num [DemandResponseStrategy_init])
    (by norm_num [DemandResponseStrategy_init])

/-! ### Scenario B -/

/-- Scenario B's state: the constructor state for `(6.5, 0.95)` with
`current_soc` raised to 0.9. -/
noncomputable def scenarioB : DemandResponseStrategy :=
  { DemandResponseStrategy_init 6.5 0.95 with current_soc := 0.9 }

lemma scenarioB_nash :
    find_nash_equilibrium_price scenarioB 0.5 40000 10 = 0.54 := by
  unfold find_nash_equilibrium_price scenarioB DemandResponseStrategy_init
  dsimp only
  rw [min_eq_left (by norm_num)]
  norm_num

lemma scenarioB_deg : (0.113 : ℝ) ≤ calculate_degradation_cost scenarioB 0.8 := by
  rw [degradation_cost_eq]
  simp only [scenarioB, DemandResponseStrategy_init]
  have h := Real.add_one_le_exp ((3.31 : ℝ) * 0.8)
  nlinarith [h]

lemma scenarioB_mc : (0.54 : ℝ) ≤ fast_dr_marginal_cost scenarioB 0.5 20 := by
  unfold fast_dr_marginal_cost
  dsimp only
  rw [fast_dr_opp_eq 0.5 (by norm_num)]
  have hdod : (scenarioB.current_soc - scenarioB.min_soc) *
      scenarioB.battery_capacity / scenarioB.battery_capacity = 0.8 := by
    have h1 : scenarioB.current_soc = 0.9 := rfl
    have h2 : scenarioB.min_soc = 0.1 := rfl
    have h3 : scenarioB.battery_capacity = 6.5 := rfl
    rw [h1, h2, h3]
    norm_num
  rw [hdod]
  unfold calculate_marginal_cost
  dsimp only
  rw [if_neg (by norm_num)]
  have hrisk : scenarioB.risk_factor = 0.05 := rfl
  have heff : scenarioB.efficiency = 0.95 := rfl
  rw [hrisk, heff, le_div_iff₀ (by norm_num : (0 : ℝ) < 0.95)]
  have hdeg := scenarioB_deg
  linarith

lemma scenarioB_bid_eq : calculate_fast_dr_bid scenarioB 0.5 40000 1 20 = (0, 0) := by
  unfold calculate_fast_dr_bid
  dsimp only
  have hcond : ¬ (fast_dr_marginal_cost scenarioB 0.5 20 <
      find_nash_equilibrium_price scenarioB 0.5 40000 10) := by
    rw [not_lt, scenarioB_nash]
    exact scenarioB_mc
  rw [if_neg hcond]

/-- C6, counterexample: in Scenario B (capacity 6.5, efficiency 0.95,
soc 0.9, market price 0.50, grid demand 40000, time window 1, hour 20)
the returned bid capacity is not the claimed accepted capacity 5.2. -/
theorem scenarioB_capacity_not_claimed :
    (calculate_fast_dr_bid scenarioB 0.5 40000 1 20).1 ≠ 5.2 := by
  rw [scenarioB_bid_eq]
  norm_num

/-- C6, amended: Scenario B's Fast DR bid is rejected — the Nash price
0.54 does not exceed the marginal cost (which is above 0.63 because the
degradation cost at depth 0.8 exceeds 0.113 and the opportunity cost is
0.25), so the function returns `(0, 0)`. -/
theorem scenarioB_bid_rejected :
    calculate_fast_dr_bid scenarioB 0.5 40000 1 20 = (0, 0) :=
  scenarioB_bid_eq
